import Mathlib

/-!
Shallow embedding of the keychain index-accounting engine of
`pkg/keystore/store.go` (package `keystore`), together with the spec-level
operations that drive it.  Machine integers (`uint32`) are embedded as `Nat`
with an explicit `% 2 ^ 32` exactly where the Go code performs 32-bit
arithmetic; every value the Go code can store in a `uint32` field is below
`2 ^ 32`, and theorems about such states carry that bound as a hypothesis
where it matters.
-/

namespace Keystore

/-- Modelled from the spec: `Change` is a two-valued tag `EXTERNAL = 0`,
`INTERNAL = 1` naming the two BIP-44 chains (the Go declaration of the
`Change` type is outside the provided sources).  It is embedded as an
integer so that unrecognized tag values are representable. -/
abbrev Change := Int

/-- The external (receive) chain tag. -/
def External : Change := 0

/-- The internal (change) chain tag. -/
def Internal : Change := 1

/-- Modelled from the spec: the error surfaced by the `Meta` accessors when
the change tag is not recognized; corresponds to `ErrUnrecognizedChange`
wrapped with the offending tag (the Go error declarations are outside the
provided sources). -/
inductive Err where
  | UnrecognizedChange (tag : Change)
deriving DecidableEq

/-- Modelled from the spec: a derivation path relative to the account node
is the pair `(change, address_index)` (the Go `DerivationPath` declaration
is outside the provided sources). -/
structure DerivationPath where
  change : Change
  index : Nat
deriving DecidableEq

/-- `const lookaheadSize = 20` of `store.go`. -/
def lookaheadSize : Nat := 20

/-- The `KeychainInfo` struct of `store.go`.  `uint32` fields are embedded
as `Nat`; `Scheme` and `Network` are string types in the source. -/
structure KeychainInfo where
  Descriptor : String
  XPub : String
  SLIP32ExtendedPublicKey : String
  ExternalXPub : String
  MaxConsecutiveExternalIndex : Nat
  InternalXPub : String
  MaxConsecutiveInternalIndex : Nat
  LookaheadSize : Nat
  Scheme : String
  Network : String
  NonConsecutiveExternalIndexes : List Nat
  NonConsecutiveInternalIndexes : List Nat
deriving DecidableEq

/-- The value type of `derivationToPublicKeyMap` in `store.go`. -/
structure PublicKeyInfo where
  PublicKey : String
  Used : Bool
deriving DecidableEq

/-- The `Meta` struct of `store.go`; the two Go maps are embedded as
association lists. -/
structure Meta where
  Main : KeychainInfo
  Derivations : List (DerivationPath × PublicKeyInfo)
  Addresses : List (String × DerivationPath)
deriving DecidableEq

/-- `2 ^ 32`, the modulus of Go `uint32` arithmetic. -/
def u32 : Nat := 2 ^ 32

/-- Go `uint32` addition. -/
def add32 (x y : Nat) : Nat := (x + y) % u32

/-- Go conversion `uint32(n)` of a non-negative length. -/
def toU32 (n : Nat) : Nat := n % u32

/-- `Meta.ChangeXPub` of `store.go`. -/
def Meta.ChangeXPub (m : Meta) (change : Change) : Except Err String :=
  if change = External then .ok m.Main.ExternalXPub
  else if change = Internal then .ok m.Main.InternalXPub
  else .error (.UnrecognizedChange change)

/-- `Meta.MaxConsecutiveIndex` of `store.go`. -/
def Meta.MaxConsecutiveIndex (m : Meta) (change : Change) : Except Err Nat :=
  if change = External then .ok m.Main.MaxConsecutiveExternalIndex
  else if change = Internal then .ok m.Main.MaxConsecutiveInternalIndex
  else .error (.UnrecognizedChange change)

/-- `Meta.SetMaxConsecutiveIndex` of `store.go`: the pointer receiver is
embedded as a function returning the post-state together with the returned
error. -/
def Meta.SetMaxConsecutiveIndex (m : Meta) (change : Change) (index : Nat) :
    Meta × Option Err :=
  if change = External then
    ({ m with Main := { m.Main with MaxConsecutiveExternalIndex := index } }, none)
  else if change = Internal then
    ({ m with Main := { m.Main with MaxConsecutiveInternalIndex := index } }, none)
  else (m, some (.UnrecognizedChange change))

/-- `Meta.NonConsecutiveIndexes` of `store.go`. -/
def Meta.NonConsecutiveIndexes (m : Meta) (change : Change) :
    Except Err (List Nat) :=
  if change = External then .ok m.Main.NonConsecutiveExternalIndexes
  else if change = Internal then .ok m.Main.NonConsecutiveInternalIndexes
  else .error (.UnrecognizedChange change)

/-- `Meta.SetNonConsecutiveIndexes` of `store.go`: reads the max
consecutive index (propagating its error), keeps exactly the given indexes
`i` with `i >= maxConsecutiveIndex`, and stores the result in the field
selected by `change`. -/
def Meta.SetNonConsecutiveIndexes (m : Meta) (change : Change)
    (indexes : List Nat) : Meta × Option Err :=
  match m.MaxConsecutiveIndex change with
  | .error e => (m, some e)
  | .ok maxConsecutiveIndex =>
    let result := indexes.filter (fun i => decide (maxConsecutiveIndex ≤ i))
    if change = External then
      ({ m with Main := { m.Main with NonConsecutiveExternalIndexes := result } },
        none)
    else if change = Internal then
      ({ m with Main := { m.Main with NonConsecutiveInternalIndexes := result } },
        none)
    else (m, some (.UnrecognizedChange change))

/-- `Meta.MaxObservableIndex` of `store.go`: `uint32(len(list))` and the
two `uint32` additions are embedded with explicit `% 2 ^ 32`. -/
def Meta.MaxObservableIndex (m : Meta) (change : Change) : Except Err Nat :=
  if change = External then
    .ok (add32 (add32 m.Main.MaxConsecutiveExternalIndex
          (toU32 m.Main.NonConsecutiveExternalIndexes.length))
          m.Main.LookaheadSize)
  else if change = Internal then
    .ok (add32 (add32 m.Main.MaxConsecutiveInternalIndex
          (toU32 m.Main.NonConsecutiveInternalIndexes.length))
          m.Main.LookaheadSize)
  else .error (.UnrecognizedChange change)

/-- Modelled from the spec: the gap-closure loop of `MarkPathAsUsed`
(whose implementation is outside the provided sources): while the smallest
element of the non-consecutive list equals the current max consecutive
index, remove it and increment the index. -/
def gapClose (mc : Nat) (s : List Nat) : Nat × List Nat :=
  if h : s.min? = some mc then
    gapClose (mc + 1) (s.erase mc)
  else (mc, s)
termination_by s.length
decreasing_by
  have hmem : mc ∈ s := List.min?_mem (fun a b => Nat.min_def ▸ by split <;> simp) h
  have hlen := List.length_erase_of_mem hmem
  have hpos : 0 < s.length := List.length_pos.mpr (by rintro rfl; simp at hmem)
  omega

/-- Modelled from the spec: `Keystore.MarkPathAsUsed` (only the interface
declaration is under the provided sources).  The case analysis on
`(change, index)` follows the spec and is written back through the `Meta`
setters of `store.go`: below the max consecutive index it is a no-op; at
the max consecutive index the index advances and gaps are closed; above it
the index is inserted into the non-consecutive list with set semantics. -/
def Meta.markPathAsUsed (m : Meta) (path : DerivationPath) : Meta × Option Err :=
  match m.MaxConsecutiveIndex path.change with
  | .error e => (m, some e)
  | .ok maxCons =>
    match m.NonConsecutiveIndexes path.change with
    | .error e => (m, some e)
    | .ok nonCons =>
      if path.index < maxCons then (m, none)
      else if path.index = maxCons then
        let p := gapClose (maxCons + 1) nonCons
        let m1 := (m.SetMaxConsecutiveIndex path.change p.1).1
        m1.SetNonConsecutiveIndexes path.change p.2
      else
        let s := if path.index ∈ nonCons then nonCons
          else nonCons ++ [path.index]
        m.SetNonConsecutiveIndexes path.change s

/-- Modelled from the spec: address derivation is a pure deterministic
function of the account xpub and the path (invariants I4/I5); the concrete
key and address codecs are outside the provided sources, so the address is
embedded as a deterministic encoding of `(xpub, change, index)`. -/
def Meta.addressAt (m : Meta) (change : Change) (index : Nat) : String :=
  m.Main.XPub ++ "/" ++ toString change ++ "/" ++ toString index

/-- Modelled from the spec: `Keystore.GetFreshAddresses` (only the
interface declaration is under the provided sources): with
`base = max_consecutive(change)`, return the addresses at paths
`(change, base) … (change, base + size - 1)` in order, without mutating
the state; the post-state is returned alongside the list. -/
def Meta.GetFreshAddresses (m : Meta) (change : Change) (size : Nat) :
    Except Err (List String × Meta) :=
  match m.MaxConsecutiveIndex change with
  | .error e => .error e
  | .ok base =>
    .ok ((List.range size).map (fun k => m.addressAt change (base + k)), m)

/-- Modelled from the spec: the `KeychainInfo` produced by `CreateKeychain`
when the caller supplies no explicit lookahead (the creation code is
outside the provided sources): both max consecutive indexes start at `0`,
both non-consecutive lists start empty, and the lookahead is the package
constant `lookaheadSize`. -/
def createKeychainInfo (descriptor xpub slip32 extXPub intXPub : String)
    (scheme network : String) : KeychainInfo :=
  { Descriptor := descriptor
    XPub := xpub
    SLIP32ExtendedPublicKey := slip32
    ExternalXPub := extXPub
    MaxConsecutiveExternalIndex := 0
    InternalXPub := intXPub
    MaxConsecutiveInternalIndex := 0
    LookaheadSize := lookaheadSize
    Scheme := scheme
    Network := network
    NonConsecutiveExternalIndexes := []
    NonConsecutiveInternalIndexes := [] }

/-- A sample keychain record used to exercise the operations on concrete
inputs: five consecutive used external indexes, two external gaps and the
default lookahead. -/
def sampleInfo : KeychainInfo :=
  { Descriptor := "account-1"
    XPub := "xpub"
    SLIP32ExtendedPublicKey := "zpub"
    ExternalXPub := "xpub-ext"
    MaxConsecutiveExternalIndex := 5
    InternalXPub := "xpub-int"
    MaxConsecutiveInternalIndex := 2
    LookaheadSize := 20
    Scheme := "BIP44"
    Network := "mainnet"
    NonConsecutiveExternalIndexes := [7, 9]
    NonConsecutiveInternalIndexes := [] }

/-- A sample `Meta` with empty caches around `sampleInfo`. -/
def sampleMeta : Meta :=
  { Main := sampleInfo, Derivations := [], Addresses := [] }

/-- C7: the gap-limit constant defaults to 20: the package-level constant
`lookaheadSize` equals 20, and a keychain created without an explicit
lookahead has `LookaheadSize = 20`. -/
theorem lookahead_default (d x s ex ix sc nw : String) :
    lookaheadSize = 20 ∧
    (createKeychainInfo d x s ex ix sc nw).LookaheadSize = 20 :=
  ⟨rfl, rfl⟩

/-- Witness for `lookahead_default` at concrete strings. -/
theorem lookahead_default_witness :
    lookaheadSize = 20 ∧
    (createKeychainInfo "d" "x" "s" "e" "i" "BIP44" "mainnet").LookaheadSize = 20 :=
  lookahead_default "d" "x" "s" "e" "i" "BIP44" "mainnet"

/-- C8: atomicity on error: for a change tag that is neither `External` nor
`Internal`, both setters return the `UnrecognizedChange` error and leave
the whole `Meta` (keychain info, derivation map and address map) exactly
as it was. -/
theorem setters_error_atomic (m : Meta) (c : Change) (i : Nat) (xs : List Nat)
    (h1 : c ≠ External) (h2 : c ≠ Internal) :
    m.SetMaxConsecutiveIndex c i = (m, some (.UnrecognizedChange c)) ∧
    m.SetNonConsecutiveIndexes c xs = (m, some (.UnrecognizedChange c)) := by
  constructor
  · simp [Meta.SetMaxConsecutiveIndex, h1, h2]
  · simp [Meta.SetNonConsecutiveIndexes, Meta.MaxConsecutiveIndex, h1, h2]

/-- Witness for `setters_error_atomic` at the unrecognized tag `7`. -/
theorem setters_error_atomic_witness :
    sampleMeta.SetMaxConsecutiveIndex 7 3 =
      (sampleMeta, some (.UnrecognizedChange 7)) ∧
    sampleMeta.SetNonConsecutiveIndexes 7 [1] =
      (sampleMeta, some (.UnrecognizedChange 7)) :=
  setters_error_atomic sampleMeta 7 3 [1] (by decide) (by decide)

/-- C10: frame property: each setter succeeds on a recognized change tag
and modifies exactly the one field it names, leaving every other field of
the `Meta` — the other chain's counter and list, the xpubs, the derivation
cache and the address index — unchanged; the stored non-consecutive list
is the input filtered by the chain's max consecutive index. -/
theorem setters_frame (m : Meta) (i : Nat) (xs : List Nat) :
    m.SetMaxConsecutiveIndex External i =
      ({ m with Main := { m.Main with MaxConsecutiveExternalIndex := i } }, none) ∧
    m.SetMaxConsecutiveIndex Internal i =
      ({ m with Main := { m.Main with MaxConsecutiveInternalIndex := i } }, none) ∧
    m.SetNonConsecutiveIndexes External xs =
      ({ m with Main := { m.Main with
          NonConsecutiveExternalIndexes :=
            xs.filter (fun j => decide (m.Main.MaxConsecutiveExternalIndex ≤ j)) } },
        none) ∧
    m.SetNonConsecutiveIndexes Internal xs =
      ({ m with Main := { m.Main with
          NonConsecutiveInternalIndexes :=
            xs.filter (fun j => decide (m.Main.MaxConsecutiveInternalIndex ≤ j)) } },
        none) := by
  refine ⟨rfl, ?_, rfl, ?_⟩
  · simp [Meta.SetMaxConsecutiveIndex, External, Internal]
  · simp [Meta.SetNonConsecutiveIndexes, Meta.MaxConsecutiveIndex,
      External, Internal]

/-- C5: each of the six `Meta` operations returns the `UnrecognizedChange`
error exactly when the change tag is neither `External` nor `Internal`,
and otherwise succeeds on the corresponding external or internal field. -/
theorem ops_unrecognized_change (m : Meta) (c : Change) (i : Nat) (xs : List Nat) :
    (m.ChangeXPub c = .error (.UnrecognizedChange c) ↔ c ≠ External ∧ c ≠ Internal) ∧
    (c = External → m.ChangeXPub c = .ok m.Main.ExternalXPub) ∧
    (c = Internal → m.ChangeXPub c = .ok m.Main.InternalXPub) ∧
    (m.MaxConsecutiveIndex c = .error (.UnrecognizedChange c) ↔
      c ≠ External ∧ c ≠ Internal) ∧
    (c = External →
      m.MaxConsecutiveIndex c = .ok m.Main.MaxConsecutiveExternalIndex) ∧
    (c = Internal →
      m.MaxConsecutiveIndex c = .ok m.Main.MaxConsecutiveInternalIndex) ∧
    ((m.SetMaxConsecutiveIndex c i).2 = some (.UnrecognizedChange c) ↔
      c ≠ External ∧ c ≠ Internal) ∧
    (c = External → m.SetMaxConsecutiveIndex c i =
      ({ m with Main := { m.Main with MaxConsecutiveExternalIndex := i } }, none)) ∧
    (c = Internal → m.SetMaxConsecutiveIndex c i =
      ({ m with Main := { m.Main with MaxConsecutiveInternalIndex := i } }, none)) ∧
    (m.NonConsecutiveIndexes c = .error (.UnrecognizedChange c) ↔
      c ≠ External ∧ c ≠ Internal) ∧
    (c = External →
      m.NonConsecutiveIndexes c = .ok m.Main.NonConsecutiveExternalIndexes) ∧
    (c = Internal →
      m.NonConsecutiveIndexes c = .ok m.Main.NonConsecutiveInternalIndexes) ∧
    ((m.SetNonConsecutiveIndexes c xs).2 = some (.UnrecognizedChange c) ↔
      c ≠ External ∧ c ≠ Internal) ∧
    (c = External → m.SetNonConsecutiveIndexes c xs =
      ({ m with Main := { m.Main with
          NonConsecutiveExternalIndexes :=
            xs.filter (fun j => decide (m.Main.MaxConsecutiveExternalIndex ≤ j)) } },
        none)) ∧
    (c = Internal → m.SetNonConsecutiveIndexes c xs =
      ({ m with Main := { m.Main with
          NonConsecutiveInternalIndexes :=
            xs.filter (fun j => decide (m.Main.MaxConsecutiveInternalIndex ≤ j)) } },
        none)) ∧
    (m.MaxObservableIndex c = .error (.UnrecognizedChange c) ↔
      c ≠ External ∧ c ≠ Internal) ∧
    (c = External → m.MaxObservableIndex c =
      .ok (add32 (add32 m.Main.MaxConsecutiveExternalIndex
        (toU32 m.Main.NonConsecutiveExternalIndexes.length)) m.Main.LookaheadSize)) ∧
    (c = Internal → m.MaxObservableIndex c =
      .ok (add32 (add32 m.Main.MaxConsecutiveInternalIndex
        (toU32 m.Main.NonConsecutiveInternalIndexes.length)) m.Main.LookaheadSize)) := by
  by_cases hE : c = External
  · subst hE
    simp [Meta.ChangeXPub, Meta.MaxConsecutiveIndex, Meta.SetMaxConsecutiveIndex,
      Meta.NonConsecutiveIndexes, Meta.SetNonConsecutiveIndexes,
      Meta.MaxObservableIndex, External, Internal]
  · by_cases hI : c = Internal
    · subst hI
      simp [Meta.ChangeXPub, Meta.MaxConsecutiveIndex, Meta.SetMaxConsecutiveIndex,
        Meta.NonConsecutiveIndexes, Meta.SetNonConsecutiveIndexes,
        Meta.MaxObservableIndex, External, Internal]
    · simp [Meta.ChangeXPub, Meta.MaxConsecutiveIndex, Meta.SetMaxConsecutiveIndex,
        Meta.NonConsecutiveIndexes, Meta.SetNonConsecutiveIndexes,
        Meta.MaxObservableIndex, hE, hI]

/-- Witness for `ops_unrecognized_change`: at the unrecognized tag `2`,
`ChangeXPub` returns the `UnrecognizedChange` error. -/
theorem ops_unrecognized_change_witness :
    sampleMeta.ChangeXPub 2 = .error (.UnrecognizedChange 2) :=
  (ops_unrecognized_change sampleMeta 2 0 []).1.mpr ⟨by decide, by decide⟩

/-- A keychain record whose external max consecutive index is the largest
`uint32` value, so that `MaxObservableIndex` overflows. -/
def overflowMeta : Meta :=
  { Main :=
    { Descriptor := "account-2"
      XPub := "xpub"
      SLIP32ExtendedPublicKey := "zpub"
      ExternalXPub := "xpub-ext"
      MaxConsecutiveExternalIndex := 2 ^ 32 - 1
      InternalXPub := "xpub-int"
      MaxConsecutiveInternalIndex := 0
      LookaheadSize := 20
      Scheme := "BIP44"
      Network := "mainnet"
      NonConsecutiveExternalIndexes := []
      NonConsecutiveInternalIndexes := [] }
    Derivations := []
    Addresses := [] }

/-- C2 counterexample: on a state with `max_consecutive_external = 2^32 - 1`
(a value every `uint32` field can hold), an empty gap list and lookahead 20,
`MaxObservableIndex` does not return the exact sum
`max_consecutive + |non_consecutive| + lookahead_size`: the `uint32`
addition wraps to 19. -/
theorem maxObservableIndex_exact_sum_cex :
    overflowMeta.MaxObservableIndex External = .ok 19 ∧
    (19 : Nat) ≠ overflowMeta.Main.MaxConsecutiveExternalIndex +
      overflowMeta.Main.NonConsecutiveExternalIndexes.length +
      overflowMeta.Main.LookaheadSize := by
  constructor
  · rfl
  · decide

/-- C2 (amended): for a recognized change tag, `MaxObservableIndex`
succeeds and returns exactly
`max_consecutive(C) + |non_consecutive(C)| + lookahead_size` whenever that
sum does not overflow a `uint32`, i.e. is below `2 ^ 32`. -/
theorem maxObservableIndex_eq_sum (m : Meta) (c : Change) (mc : Nat)
    (ns : List Nat) (la : Nat)
    (hmc : m.MaxConsecutiveIndex c = .ok mc)
    (hns : m.NonConsecutiveIndexes c = .ok ns)
    (hla : m.Main.LookaheadSize = la)
    (hsum : mc + ns.length + la < 2 ^ 32) :
    m.MaxObservableIndex c = .ok (mc + ns.length + la) := by
  by_cases hE : c = External
  · subst hE
    simp [Meta.MaxConsecutiveIndex, Meta.NonConsecutiveIndexes,
      External, Internal] at hmc hns
    simp [Meta.MaxObservableIndex, External, Internal, add32, toU32, u32,
      hla, hmc, hns]
    omega
  · by_cases hI : c = Internal
    · subst hI
      simp [Meta.MaxConsecutiveIndex, Meta.NonConsecutiveIndexes,
        External, Internal] at hmc hns
      simp [Meta.MaxObservableIndex, External, Internal, add32, toU32, u32,
        hla, hmc, hns]
      omega
    · simp [Meta.MaxConsecutiveIndex, hE, hI] at hmc

/-- Witness for `maxObservableIndex_eq_sum`: on `sampleMeta` the external
observable bound is `5 + 2 + 20 = 27`. -/
theorem maxObservableIndex_eq_sum_witness :
    sampleMeta.MaxObservableIndex External = .ok 27 := by
  simpa using
    maxObservableIndex_eq_sum sampleMeta External 5 [7, 9] 20 rfl rfl rfl
      (by norm_num)

/-- C9 (amended): for a recognized change tag, `MaxObservableIndex` returns
`(max_consecutive(C) + |non_consecutive(C)| + lookahead_size) mod 2 ^ 32`;
when the exact sum reaches `2 ^ 32` while
`|non_consecutive(C)| + lookahead_size` is itself below `2 ^ 32`, the
returned window bound wraps around and is strictly smaller than
`max_consecutive(C)`. -/
theorem maxObservableIndex_mod32 (m : Meta) (c : Change) (mc : Nat)
    (ns : List Nat) (la : Nat)
    (hmc : m.MaxConsecutiveIndex c = .ok mc)
    (hns : m.NonConsecutiveIndexes c = .ok ns)
    (hla : m.Main.LookaheadSize = la) :
    m.MaxObservableIndex c = .ok ((mc + ns.length + la) % 2 ^ 32) ∧
    (2 ^ 32 ≤ mc + ns.length + la → ns.length + la < 2 ^ 32 →
      (mc + ns.length + la) % 2 ^ 32 < mc) := by
  refine ⟨?_, fun h1 h2 => ?_⟩
  · by_cases hE : c = External
    · subst hE
      simp [Meta.MaxConsecutiveIndex, Meta.NonConsecutiveIndexes,
        External, Internal] at hmc hns
      simp [Meta.MaxObservableIndex, External, Internal, add32, toU32, u32,
        hla, hmc, hns]
    · by_cases hI : c = Internal
      · subst hI
        simp [Meta.MaxConsecutiveIndex, Meta.NonConsecutiveIndexes,
          External, Internal] at hmc hns
        simp [Meta.MaxObservableIndex, External, Internal, add32, toU32, u32,
          hla, hmc, hns]
      · simp [Meta.MaxConsecutiveIndex, hE, hI] at hmc
  · omega

/-- Witness for `maxObservableIndex_mod32`: on `overflowMeta` the sum
`(2^32 - 1) + 0 + 20` wraps to `19`, which is smaller than the max
consecutive index `2^32 - 1`. -/
theorem maxObservableIndex_mod32_witness :
    overflowMeta.MaxObservableIndex External =
      .ok (((2 ^ 32 - 1) + 0 + 20) % 2 ^ 32) ∧
    ((2 ^ 32 - 1) + 0 + 20) % 2 ^ 32 < 2 ^ 32 - 1 := by
  have h := maxObservableIndex_mod32 overflowMeta External (2 ^ 32 - 1) [] 20
    rfl rfl rfl
  exact ⟨by simpa using h.1, h.2 (by norm_num) (by norm_num)⟩

/-- A keychain record where the exact observable sum reaches `2 ^ 32`
although the max consecutive index is small: four gap entries and the
largest `uint32` lookahead. -/
def wrapMeta : Meta :=
  { Main :=
    { Descriptor := "account-3"
      XPub := "xpub"
      SLIP32ExtendedPublicKey := "zpub"
      ExternalXPub := "xpub-ext"
      MaxConsecutiveExternalIndex := 5
      InternalXPub := "xpub-int"
      MaxConsecutiveInternalIndex := 0
      LookaheadSize := 2 ^ 32 - 1
      Scheme := "BIP44"
      Network := "mainnet"
      NonConsecutiveExternalIndexes := [6, 7, 8, 9]
      NonConsecutiveInternalIndexes := [] }
    Derivations := []
    Addresses := [] }

/-- C9 counterexample: on `wrapMeta` the exact sum is `2 ^ 32 + 8`, so it
reaches `2 ^ 32`, and the returned bound wraps to `8` — which is not
smaller than `max_consecutive(External) = 5`: the final clause of the
claim fails when the overflow is driven by the lookahead and gap count. -/
theorem maxObservableIndex_wrap_cex :
    2 ^ 32 ≤ wrapMeta.Main.MaxConsecutiveExternalIndex +
      wrapMeta.Main.NonConsecutiveExternalIndexes.length +
      wrapMeta.Main.LookaheadSize ∧
    wrapMeta.MaxObservableIndex External = .ok 8 ∧
    ¬ (8 < wrapMeta.Main.MaxConsecutiveExternalIndex) := by
  refine ⟨by norm_num [wrapMeta], rfl, by norm_num [wrapMeta]⟩

/-- C1 counterexample: `SetNonConsecutiveIndexes` keeps every index `i`
with `i >= maxConsecutiveIndex`, so an index equal to the max consecutive
index survives: on `sampleMeta` (external max consecutive index 5), the
call with `[5]` stores `[5]`, whose element is not strictly greater than
the max consecutive index of the resulting state. -/
theorem setNonConsecutive_strict_cex :
    ¬ (∀ x ∈ (sampleMeta.SetNonConsecutiveIndexes External
          [5]).1.Main.NonConsecutiveExternalIndexes,
        (sampleMeta.SetNonConsecutiveIndexes External
          [5]).1.Main.MaxConsecutiveExternalIndex < x) := by
  decide

/-- C1 (amended): immediately after any call to `SetNonConsecutiveIndexes`
on chain `C`, every element of the stored non-consecutive list of `C` is
greater than or equal to — not necessarily strictly greater than — the max
consecutive index of `C`. -/
theorem setNonConsecutive_ge (m : Meta) (c : Change) (xs : List Nat)
    (mc : Nat) (l : List Nat)
    (hmc : (m.SetNonConsecutiveIndexes c xs).1.MaxConsecutiveIndex c = .ok mc)
    (hl : (m.SetNonConsecutiveIndexes c xs).1.NonConsecutiveIndexes c = .ok l) :
    ∀ x ∈ l, mc ≤ x := by
  by_cases hE : c = External
  · subst hE
    simp [Meta.SetNonConsecutiveIndexes, Meta.MaxConsecutiveIndex,
      Meta.NonConsecutiveIndexes, External, Internal] at hmc hl
    intro x hx
    rw [← hl] at hx
    have := List.of_mem_filter hx
    simp [hmc] at this
    exact this
  · by_cases hI : c = Internal
    · subst hI
      simp [Meta.SetNonConsecutiveIndexes, Meta.MaxConsecutiveIndex,
        Meta.NonConsecutiveIndexes, External, Internal] at hmc hl
      intro x hx
      rw [← hl] at hx
      have := List.of_mem_filter hx
      simp [hmc] at this
      exact this
    · simp [Meta.SetNonConsecutiveIndexes, Meta.MaxConsecutiveIndex,
        Meta.NonConsecutiveIndexes, hE, hI] at hmc

/-- Witness for `setNonConsecutive_ge`: after storing `[3, 5, 9]` on
`sampleMeta`, the kept element `5` satisfies the bound at the max
consecutive index `5`. -/
theorem setNonConsecutive_ge_witness : (5 : Nat) ≤ 5 :=
  setNonConsecutive_ge sampleMeta External [3, 5, 9] 5 [5, 9] rfl rfl 5
    (by decide)

/-- C4 counterexample: `SetNonConsecutiveIndexes` does not deduplicate its
input: on `sampleMeta` the call with `[7, 7]` stores `[7, 7]`, a list with
repeated elements. -/
theorem setNonConsecutive_dup_cex :
    ¬ ((sampleMeta.SetNonConsecutiveIndexes External
        [7, 7]).1.Main.NonConsecutiveExternalIndexes).Nodup := by
  decide

/-- C4 (amended): `SetNonConsecutiveIndexes` never introduces a duplicate:
whenever the given index list has no repeated elements, the stored
non-consecutive list of that chain has none either (it is a filtered
sublist of the input); with a duplicated input the duplicates survive. -/
theorem setNonConsecutive_nodup (m : Meta) (c : Change) (xs : List Nat)
    (l : List Nat) (hx : xs.Nodup)
    (hl : (m.SetNonConsecutiveIndexes c xs).1.NonConsecutiveIndexes c = .ok l) :
    l.Nodup := by
  by_cases hE : c = External
  · subst hE
    simp [Meta.SetNonConsecutiveIndexes, Meta.MaxConsecutiveIndex,
      Meta.NonConsecutiveIndexes, External, Internal] at hl
    rw [← hl]
    exact List.Nodup.filter _ hx
  · by_cases hI : c = Internal
    · subst hI
      simp [Meta.SetNonConsecutiveIndexes, Meta.MaxConsecutiveIndex,
        Meta.NonConsecutiveIndexes, External, Internal] at hl
      rw [← hl]
      exact List.Nodup.filter _ hx
    · simp [Meta.SetNonConsecutiveIndexes, Meta.MaxConsecutiveIndex,
        Meta.NonConsecutiveIndexes, hE, hI] at hl

/-- Witness for `setNonConsecutive_nodup`: storing the duplicate-free
`[9, 7]` on `sampleMeta` keeps the stored list duplicate-free. -/
theorem setNonConsecutive_nodup_witness : ([9, 7] : List Nat).Nodup :=
  setNonConsecutive_nodup sampleMeta External [9, 7] [9, 7] (by decide) rfl

/-- C6: with `base = max_consecutive(change)`, `GetFreshAddresses` returns
exactly the addresses at paths `(change, base) … (change, base + n - 1)`
in that order, does not mutate the state (the returned state is the input
state), and is idempotent: a second call on the returned state yields the
same result. -/
theorem getFreshAddresses_spec (m : Meta) (c : Change) (n base : Nat)
    (hb : m.MaxConsecutiveIndex c = .ok base) :
    m.GetFreshAddresses c n =
      .ok ((List.range n).map (fun k => m.addressAt c (base + k)), m) ∧
    ∀ l m', m.GetFreshAddresses c n = .ok (l, m') →
      m' = m ∧ m'.GetFreshAddresses c n = m.GetFreshAddresses c n := by
  have h1 : m.GetFreshAddresses c n =
      .ok ((List.range n).map (fun k => m.addressAt c (base + k)), m) := by
    simp [Meta.GetFreshAddresses, hb]
  refine ⟨h1, fun l m' h2 => ?_⟩
  rw [h1] at h2
  simp only [Except.ok.injEq, Prod.mk.injEq] at h2
  obtain ⟨hl, hm⟩ := h2
  subst hm
  exact ⟨rfl, rfl⟩

/-- Witness for `getFreshAddresses_spec`: on `sampleMeta` (external max
consecutive index 5) a batch of two fresh external addresses is the pair
of addresses at indexes 5 and 6, and the state is returned unchanged. -/
theorem getFreshAddresses_spec_witness :
    sampleMeta.GetFreshAddresses External 2 =
      .ok (["xpub/0/5", "xpub/0/6"], sampleMeta) := by
  simpa using (getFreshAddresses_spec sampleMeta External 2 5 rfl).1

/-- Gap closure only raises the index past elements it removes: if every
element of a duplicate-free list is at least `mc`, every element left by
`gapClose mc s` is at least the returned index. -/
theorem gapClose_ge :
    ∀ (fuel : Nat) (mc : Nat) (s : List Nat), s.length ≤ fuel →
      (∀ x ∈ s, mc ≤ x) → s.Nodup →
      ∀ x ∈ (gapClose mc s).2, (gapClose mc s).1 ≤ x := by
  intro fuel
  induction fuel with
  | zero =>
    intro mc s hlen hge hnd
    have hs : s = [] := List.length_eq_zero.mp (Nat.le_zero.mp hlen)
    subst hs
    rw [gapClose]
    simp
  | succ n ih =>
    intro mc s hlen hge hnd
    rw [gapClose]
    split
    · rename_i h
      have hmem : mc ∈ s := List.min?_mem (fun a b => min_choice a b) h
      have hlen2 := List.length_erase_of_mem hmem
      have hpos : 0 < s.length := List.length_pos.mpr (by rintro rfl; simp at hmem)
      refine ih (mc + 1) (s.erase mc) (by omega) ?_ (List.Nodup.erase _ hnd)
      intro x hx
      have hx2 := (List.Nodup.mem_erase_iff hnd).mp hx
      have hx3 := hge x hx2.2
      have hx4 := hx2.1
      omega
    · exact fun x hx => hge x hx


/-- C3: `MarkPathAsUsed` on a path `(C, i)` of a state satisfying the
gap invariants performs the spec case analysis: below the max
consecutive index it leaves the state unchanged; at the max consecutive
index it advances the index and closes gaps via `gapClose` (while the
smallest gap element equals the new index, remove it and increment
again); above it, it inserts `i` into the non-consecutive list with set
semantics (a duplicate insert is a no-op). -/
theorem markPathAsUsed_cases (m : Meta) (c : Change) (i mc : Nat) (s : List Nat)
    (hc : c = External ∨ c = Internal)
    (hmc : m.MaxConsecutiveIndex c = .ok mc)
    (hs : m.NonConsecutiveIndexes c = .ok s)
    (hge : ∀ x ∈ s, mc < x) (hnd : s.Nodup) :
    (i < mc → m.markPathAsUsed ⟨c, i⟩ = (m, none)) ∧
    (i = mc →
      (m.markPathAsUsed ⟨c, i⟩).2 = none ∧
      (m.markPathAsUsed ⟨c, i⟩).1.MaxConsecutiveIndex c =
        .ok (gapClose (mc + 1) s).1 ∧
      (m.markPathAsUsed ⟨c, i⟩).1.NonConsecutiveIndexes c =
        .ok (gapClose (mc + 1) s).2) ∧
    (mc < i →
      (m.markPathAsUsed ⟨c, i⟩).2 = none ∧
      (m.markPathAsUsed ⟨c, i⟩).1.MaxConsecutiveIndex c = .ok mc ∧
      (m.markPathAsUsed ⟨c, i⟩).1.NonConsecutiveIndexes c =
        .ok (if i ∈ s then s else s ++ [i])) := by
  have hfilter1 : (gapClose (mc + 1) s).2.filter
      (fun j => decide ((gapClose (mc + 1) s).1 ≤ j)) = (gapClose (mc + 1) s).2 :=
    List.filter_eq_self.mpr (fun a ha => by
      simpa using gapClose_ge s.length (mc + 1) s le_rfl
        (fun x hx => by have := hge x hx; omega) hnd a ha)
  have hins : mc < i → (if i ∈ s then s else s ++ [i]).filter
      (fun j => decide (mc ≤ j)) = if i ∈ s then s else s ++ [i] := fun hi =>
    List.filter_eq_self.mpr (fun a ha => by
      by_cases hmem : i ∈ s
      · simp only [if_pos hmem] at ha
        have := hge a ha
        simp
        omega
      · simp only [if_neg hmem, List.mem_append, List.mem_singleton] at ha
        rcases ha with ha | ha
        · have := hge a ha
          simp
          omega
        · subst ha
          simp
          omega)
  rcases hc with hc | hc <;> subst hc
  · simp [Meta.MaxConsecutiveIndex, Meta.NonConsecutiveIndexes,
      External, Internal] at hmc hs
    refine ⟨?_, ?_, ?_⟩
    · intro hi
      simp [Meta.markPathAsUsed, Meta.MaxConsecutiveIndex,
        Meta.NonConsecutiveIndexes, hmc, hs, hi]
    · intro hi
      subst hi
      refine ⟨?_, ?_, ?_⟩ <;>
        simp [Meta.markPathAsUsed, Meta.MaxConsecutiveIndex,
          Meta.NonConsecutiveIndexes, Meta.SetMaxConsecutiveIndex,
          Meta.SetNonConsecutiveIndexes, hmc, hs, hfilter1]
    · intro hi
      have hnlt : ¬ i < mc := by omega
      have hne : ¬ i = mc := by omega
      refine ⟨?_, ?_, ?_⟩ <;>
        simp [Meta.markPathAsUsed, Meta.MaxConsecutiveIndex,
          Meta.NonConsecutiveIndexes, Meta.SetNonConsecutiveIndexes,
          hmc, hs, hnlt, hne, hins hi]
  · simp [Meta.MaxConsecutiveIndex, Meta.NonConsecutiveIndexes,
      External, Internal] at hmc hs
    refine ⟨?_, ?_, ?_⟩
    · intro hi
      simp [Meta.markPathAsUsed, Meta.MaxConsecutiveIndex,
        Meta.NonConsecutiveIndexes, External, Internal, hmc, hs, hi]
    · intro hi
      subst hi
      refine ⟨?_, ?_, ?_⟩ <;>
        simp [Meta.markPathAsUsed, Meta.MaxConsecutiveIndex,
          Meta.NonConsecutiveIndexes, Meta.SetMaxConsecutiveIndex,
          Meta.SetNonConsecutiveIndexes, External, Internal, hmc, hs, hfilter1]
    · intro hi
      have hnlt : ¬ i < mc := by omega
      have hne : ¬ i = mc := by omega
      refine ⟨?_, ?_, ?_⟩ <;>
        simp [Meta.markPathAsUsed, Meta.MaxConsecutiveIndex,
          Meta.NonConsecutiveIndexes, Meta.SetNonConsecutiveIndexes,
          External, Internal, hmc, hs, hnlt, hne, hins hi]


/-- Witness for `markPathAsUsed_cases`: marking index 5 on `sampleMeta`
(max consecutive index 5, gaps `[7, 9]`) succeeds, advances the max
consecutive index to 6 and keeps the gaps, since the smallest gap 7 is
not the new index 6. -/
theorem markPathAsUsed_cases_witness :
    (sampleMeta.markPathAsUsed ⟨External, 5⟩).2 = none ∧
    (sampleMeta.markPathAsUsed ⟨External, 5⟩).1.MaxConsecutiveIndex External =
      .ok 6 ∧
    (sampleMeta.markPathAsUsed ⟨External, 5⟩).1.NonConsecutiveIndexes External =
      .ok [7, 9] := by
  have hgc : gapClose 6 [7, 9] = (6, [7, 9]) := by
    rw [gapClose, dif_neg (by decide)]
  have h := (markPathAsUsed_cases sampleMeta External 5 5 [7, 9]
    (Or.inl rfl) rfl rfl (by decide) (by decide)).2.1 rfl
  norm_num [hgc] at h
  exact ⟨h.1, h.2.1, h.2.2⟩

end Keystore
